import Mathlib

/-!
# Verification of the apple-js persistent command pipeline

This file gives a shallow embedding of the core of the apple-js repository:
the `Osascript` class of `src/Osascript.js` (the command pipeline) and the
worker loop of `workers/index.js`, and proves or refutes the specified
properties about them.

Modelling conventions:
* JS strings are Lean `String`s; a JS `null`/non-array argument is `Option`.
* The pipeline's `#pending` array of `{resolve, reject}` entries is a FIFO
  list of request identifiers; a settlement log (`settled`) and a write log
  (`writes`) record the externally observable effects (promise settlements
  and `stdin.write` calls).  `commands` records, for each request id, the
  text written for it (bookkeeping used only to state properties).
* The constructor attaches the `stdout`/`stderr` data handlers of the
  spawned worker (`.on("data", ...)`); `restart()` in the source spawns a
  fresh process but attaches no handlers.  `attached` records which worker
  ids have the pipeline's handlers bound.
* The worker's `exec` callback is asynchronous: each received command is
  added to an `inFlight` list, and a scheduler event completes any in-flight
  command, writing one stdout or stderr chunk.  The `exec` result for a
  command is given by a deterministic oracle `String → ExecOutcome`.
* Stream transport is modelled with per-worker buffers delivered in order,
  one `write` becoming one `data` chunk (the regime the source relies on).
* JS `String.prototype.trim` is modelled by `jsTrim`, trimming the ASCII
  whitespace characters that can actually occur in the framed commands.
-/

namespace AppleJs

/-- The single-quote character, kept out of string literals. -/
def sqChar : Char := Char.ofNat 39

/-- The single-quote character as a string. -/
def sq : String := String.singleton sqChar

/-- ASCII whitespace, as trimmed by JS `trim` on the strings in play. -/
def isJsWS (c : Char) : Bool :=
  c == ' ' || c == '\n' || c == '\t' || c == '\r'

/-- Model of JS `String.prototype.trim`: drop whitespace from both ends. -/
def jsTrim (s : String) : String :=
  ⟨((s.data.dropWhile isJsWS).reverse.dropWhile isJsWS).reverse⟩

/-- The here-document framing built by `executeScript`:
`osascript <<'__APPLESCRIPT__'\n<payload>\n__APPLESCRIPT__\n`. -/
def hereDoc (scriptText : String) : String :=
  "osascript <<" ++ sq ++ "__APPLESCRIPT__" ++ sq ++ "\n" ++ scriptText
    ++ "\n__APPLESCRIPT__\n"

/-- `scriptCommand?.replace(/'/g, "\\'")`: every single quote becomes
backslash-quote (character-level model of the global regex replace). -/
def escapeSQ (s : String) : String :=
  ⟨s.data.foldr (fun c acc => (if c = sqChar then ['\\', sqChar] else [c]) ++ acc) []⟩

/-- The command text built by `executeSingleCommand`:
`osascript -e '<escaped>'\n`; a `null` argument interpolates as the JS
string `undefined`. -/
def rawCommand (scriptCommand : Option String) : String :=
  "osascript -e " ++ sq
    ++ (match scriptCommand with
        | none => "undefined"
        | some s => escapeSQ s)
    ++ sq ++ "\n"

/-- How a pending promise was settled. -/
inductive Outcome where
  | resolved (text : String)
  | rejected (text : String)
deriving DecidableEq, Repr

/-- State of one `Osascript` pipeline instance.

`mainThread` is the worker id currently held (JS `this.mainThread`, `none`
after `close()`); `attached` lists the worker ids whose `stdout`/`stderr`
data events are wired to `#handleOutput`/`#errorHandler`; `pending` is the
FIFO of outstanding request ids.  `settled`, `writes` and `commands` are
observation logs (promise settlements, `stdin.write` calls, and the text
written for each request id, in order). -/
structure OsaState where
  mainThread : Option Nat
  attached : List Nat
  pending : List Nat
  nextReqId : Nat
  nextWid : Nat
  commands : List String
  settled : List (Nat × Outcome)
  writes : List (Nat × String)
deriving DecidableEq, Repr

/-- Pipeline state right after `new Osascript()`: worker 0 spawned with both
data handlers attached, empty queue. -/
def initOsa : OsaState :=
  { mainThread := some 0, attached := [0], pending := [], nextReqId := 0,
    nextWid := 1, commands := [], settled := [], writes := [] }

/-- `executeScript(appleCodeArray)`: errors if no `mainThread`, errors if the
argument is not a non-empty array; otherwise joins the lines, frames them as
a here-document, appends a pending entry and writes the framed command.
Returns the new state, the worker id written to, and the text written. -/
def executeScript (st : OsaState) (appleCodeArray : Option (List String)) :
    Except String (OsaState × Nat × String) :=
  match st.mainThread with
  | none => .error "Osascript runtime error: mainThread is not running"
  | some w =>
    match appleCodeArray with
    | none => .error "executeScript expects a non-empty array of AppleScript lines"
    | some a =>
      if a.isEmpty then
        .error "executeScript expects a non-empty array of AppleScript lines"
      else
        let command := hereDoc (String.intercalate "\n" a)
        .ok ({ st with
                pending := st.pending ++ [st.nextReqId],
                nextReqId := st.nextReqId + 1,
                commands := st.commands ++ [command],
                writes := st.writes ++ [(w, command)] }, w, command)

/-- `executeSingleCommand(scriptCommand)`: errors if no `mainThread`;
otherwise wraps the text in `osascript -e '...'` (single quotes escaped, no
other validation), appends a pending entry and writes it. -/
def executeSingleCommand (st : OsaState) (scriptCommand : Option String) :
    Except String (OsaState × Nat × String) :=
  match st.mainThread with
  | none => .error "Error ! main thread is not running"
  | some w =>
    let command := rawCommand scriptCommand
    .ok ({ st with
            pending := st.pending ++ [st.nextReqId],
            nextReqId := st.nextReqId + 1,
            commands := st.commands ++ [command],
            writes := st.writes ++ [(w, command)] }, w, command)

/-- `#handleOutput(out)`: shift the oldest pending entry; if present,
resolve it with the chunk text; on an empty queue do nothing. -/
def handleOutput (st : OsaState) (out : String) : OsaState :=
  match st.pending with
  | [] => st
  | current :: rest =>
    { st with pending := rest, settled := st.settled ++ [(current, .resolved out)] }

/-- `#errorHandler(err)`: shift the oldest pending entry; if present,
reject it with the chunk text; on an empty queue do nothing. -/
def errorHandler (st : OsaState) (err : String) : OsaState :=
  match st.pending with
  | [] => st
  | current :: rest =>
    { st with pending := rest, settled := st.settled ++ [(current, .rejected err)] }

/-- `close()`: if a worker is held, write `exit\n` to it, end its stdin and
drop the handle; otherwise do nothing. -/
def closeOsa (st : OsaState) : OsaState :=
  match st.mainThread with
  | none => st
  | some w => { st with mainThread := none, writes := st.writes ++ [(w, "exit\n")] }

/-- `restart()`: spawn a fresh worker and hold it.  The source attaches no
`stdout`/`stderr` data handlers here (only the constructor does), so
`attached` is unchanged. -/
def restartOsa (st : OsaState) : OsaState :=
  { st with mainThread := some st.nextWid, nextWid := st.nextWid + 1 }

/-- Result of `exec(command, cb)` for one command: either its stdout text,
or failure with the callback's `stderr` and `err.message`. -/
inductive ExecOutcome where
  | ok (stdout : String)
  | fail (stderr : String) (message : String)
deriving DecidableEq, Repr

/-- Worker-process state: whether it is alive, and the commands whose
`exec` has been started but whose callback has not yet run. -/
structure WorkerState where
  alive : Bool
  inFlight : List String
deriving DecidableEq, Repr

/-- The worker's `process.stdin.on("data")` handler: trim the chunk; on
`exit`, log `[Worker] Exiting.` to stdout and die; otherwise start `exec` of
the command (asynchronously — the handler returns at once). -/
def workerOnData (ws : WorkerState) (chunk : String) : WorkerState × Option String :=
  if ws.alive then
    let command := jsTrim chunk
    if command = "exit" then ({ ws with alive := false }, some "[Worker] Exiting.\n")
    else ({ ws with inFlight := ws.inFlight ++ [command] }, none)
  else (ws, none)

/-- The chunk the `exec` callback writes: on success `stdout + "\n"` to the
output stream, on failure `[ERROR] ${stderr || err.message}\n` to the error
stream (`inl` = stdout chunk, `inr` = stderr chunk). -/
def execChunk (r : ExecOutcome) : String ⊕ String :=
  match r with
  | .ok stdout => .inl (stdout ++ "\n")
  | .fail stderr message =>
    .inr ("[ERROR] " ++ (if stderr = "" then message else stderr) ++ "\n")

/-- One spawned worker process together with its three stream buffers:
pipeline-to-worker stdin writes and worker-to-pipeline stdout/stderr chunks,
each delivered in order. -/
structure WorkerProc where
  ws : WorkerState
  stdinBuf : List String
  outBuf : List String
  errBuf : List String
deriving DecidableEq, Repr

/-- A freshly spawned worker process. -/
def freshProc : WorkerProc :=
  { ws := { alive := true, inFlight := [] }, stdinBuf := [], outBuf := [], errBuf := [] }

/-- Whole-system state: the pipeline plus every worker process spawned so
far (index = worker id). -/
structure SysState where
  os : OsaState
  procs : List WorkerProc
deriving DecidableEq, Repr

/-- System state right after `new Osascript()`. -/
def initSys : SysState := { os := initOsa, procs := [freshProc] }

/-- The events of an execution: caller API calls, and the asynchronous
deliveries/completions the runtime schedules (`w` = worker id, `i` = index
into that worker's in-flight `exec` list). -/
inductive Event where
  | submit (appleCodeArray : Option (List String))
  | submitRaw (scriptCommand : Option String)
  | deliverStdin (w : Nat)
  | completeExec (w i : Nat)
  | deliverOut (w : Nat)
  | deliverErr (w : Nat)
  | restart
  | close

/-- Replace worker process `w` (no-op when out of range). -/
def setProc (procs : List WorkerProc) (w : Nat) (p : WorkerProc) : List WorkerProc :=
  procs.set w p

/-- One step of the system: an event that is not currently enabled (empty
buffer, missing worker, failed validation) leaves the state unchanged. -/
def step (oracle : String → ExecOutcome) (s : SysState) (e : Event) : SysState :=
  match e with
  | .submit arr =>
    match executeScript s.os arr with
    | .error _ => s
    | .ok (os2, w, command) =>
      match s.procs.get? w with
      | none => { s with os := os2 }
      | some p =>
        { os := os2, procs := setProc s.procs w { p with stdinBuf := p.stdinBuf ++ [command] } }
  | .submitRaw cmd =>
    match executeSingleCommand s.os cmd with
    | .error _ => s
    | .ok (os2, w, command) =>
      match s.procs.get? w with
      | none => { s with os := os2 }
      | some p =>
        { os := os2, procs := setProc s.procs w { p with stdinBuf := p.stdinBuf ++ [command] } }
  | .deliverStdin w =>
    match s.procs.get? w with
    | none => s
    | some p =>
      match p.stdinBuf with
      | [] => s
      | chunk :: rest =>
        let r := workerOnData p.ws chunk
        let log := (match r.2 with | some l => [l] | none => [])
        let p2 := { p with ws := r.1, stdinBuf := rest, outBuf := p.outBuf ++ log }
        { s with procs := setProc s.procs w p2 }
  | .completeExec w i =>
    match s.procs.get? w with
    | none => s
    | some p =>
      if p.ws.alive then
        match p.ws.inFlight.get? i with
        | none => s
        | some command =>
          let ws2 : WorkerState := { p.ws with inFlight := p.ws.inFlight.eraseIdx i }
          match execChunk (oracle command) with
          | .inl c =>
            let p2 := { p with ws := ws2, outBuf := p.outBuf ++ [c] }
            { s with procs := setProc s.procs w p2 }
          | .inr c =>
            let p2 := { p with ws := ws2, errBuf := p.errBuf ++ [c] }
            { s with procs := setProc s.procs w p2 }
      else s
  | .deliverOut w =>
    match s.procs.get? w with
    | none => s
    | some p =>
      match p.outBuf with
      | [] => s
      | c :: rest =>
        if s.os.attached.contains w then
          { os := handleOutput s.os c, procs := setProc s.procs w { p with outBuf := rest } }
        else s
  | .deliverErr w =>
    match s.procs.get? w with
    | none => s
    | some p =>
      match p.errBuf with
      | [] => s
      | c :: rest =>
        if s.os.attached.contains w then
          { os := errorHandler s.os c, procs := setProc s.procs w { p with errBuf := rest } }
        else s
  | .restart =>
    { os := restartOsa s.os, procs := s.procs ++ [freshProc] }
  | .close =>
    match s.os.mainThread with
    | none => s
    | some w =>
      match s.procs.get? w with
      | none => { s with os := closeOsa s.os }
      | some p =>
        { os := closeOsa s.os,
          procs := setProc s.procs w { p with stdinBuf := p.stdinBuf ++ ["exit\n"] } }

/-- Run a list of events from a given state. -/
def runFrom (oracle : String → ExecOutcome) (s : SysState) (events : List Event) : SysState :=
  events.foldl (step oracle) s

/-- Run a list of events from the freshly constructed system. -/
def run (oracle : String → ExecOutcome) (events : List Event) : SysState :=
  runFrom oracle initSys events

/-- The worker's one response chunk for a command, per the oracle, as the
pipeline's handlers see it (success chunk ⇒ resolution, error chunk ⇒
rejection). -/
def expectedResponse (oracle : String → ExecOutcome) (command : String) : Outcome :=
  match execChunk (oracle command) with
  | .inl c => .resolved c
  | .inr c => .rejected c

/-- Formalisation of the FIFO-correlation claim for a given execution: every
settled request got the worker's response to its own command (the text
written for it, as the worker trims and executes it), and settlements
happened in strict submission order `0, 1, 2, ...`. -/
abbrev claimFIFO (oracle : String → ExecOutcome) (events : List Event) : Prop :=
  (∀ pr ∈ (run oracle events).os.settled,
      pr.2 = expectedResponse oracle (jsTrim ((run oracle events).os.commands.getD pr.1 ""))) ∧
  (run oracle events).os.settled.map Prod.fst
      = List.range (run oracle events).os.settled.length

/-- Formalisation of the single-in-flight claim for a given execution: the
number of commands written but not yet answered never exceeds one (checked
at the end of the execution; prefixes are themselves executions). -/
abbrev claimSingleInFlight (oracle : String → ExecOutcome) (events : List Event) : Prop :=
  (run oracle events).os.pending.length ≤ 1

/-- Formalisation of the sequential-worker claim for a given execution: no
worker ever has two commands executing at once. -/
abbrev claimWorkerSeq (oracle : String → ExecOutcome) (events : List Event) : Prop :=
  ∀ p ∈ (run oracle events).procs, p.ws.inFlight.length ≤ 1

/-- An oracle under which each command's output is the command text itself
(a deterministic worker response, distinct for distinct commands). -/
def oracleEcho : String → ExecOutcome := fun c => .ok c

/-- Two concurrent submissions, both delivered, the second finishing first:
a legal scheduling of the source's asynchronous `exec`. -/
def evOutOfOrder : List Event :=
  [.submit (some ["A"]), .submit (some ["B"]), .deliverStdin 0, .deliverStdin 0,
   .completeExec 0 1, .deliverOut 0]

/-- What the worker's line trim leaves of a framed command: the frame with
only the terminating newline removed. -/
def trimmedFrame (scriptText : String) : String :=
  "osascript <<" ++ sq ++ "__APPLESCRIPT__" ++ sq ++ "\n" ++ scriptText
    ++ "\n__APPLESCRIPT__"

/-- The list-level core of `jsTrim`. -/
def jsTrimList (d : List Char) : List Char :=
  ((d.dropWhile isJsWS).reverse.dropWhile isJsWS).reverse

theorem jsTrim_eq_mk (s : String) : jsTrim s = ⟨jsTrimList s.data⟩ := rfl

theorem jsTrimList_eq_rdropWhile (d : List Char) :
    jsTrimList d = List.rdropWhile isJsWS (d.dropWhile isJsWS) := rfl

theorem rdropWhile_ws_append (l t : List Char) (b : Char)
    (hb : isJsWS b = false) (ht : ∀ c ∈ t, isJsWS c = true) :
    List.rdropWhile isJsWS (l ++ [b] ++ t) = l ++ [b] := by
  induction t using List.reverseRecOn with
  | nil =>
    rw [List.append_nil]
    exact List.rdropWhile_concat_neg _ _ _ (by simp [hb])
  | append_singleton t c ih =>
    rw [← List.append_assoc]
    rw [List.rdropWhile_concat_pos _ _ _ (ht c (by simp))]
    exact ih fun x hx => ht x (by simp [hx])

theorem jsTrimList_shape (a b : Char) (l t : List Char)
    (ha : isJsWS a = false) (hb : isJsWS b = false)
    (ht : ∀ c ∈ t, isJsWS c = true) :
    jsTrimList ((a :: l) ++ [b] ++ t) = (a :: l) ++ [b] := by
  rw [jsTrimList_eq_rdropWhile]
  have hfront : List.dropWhile isJsWS ((a :: l) ++ [b] ++ t)
      = (a :: l) ++ [b] ++ t := by
    simp only [List.cons_append, List.dropWhile_cons, ha]
    simp
  rw [hfront]
  exact rdropWhile_ws_append _ _ _ hb ht

theorem jsTrim_hereDoc (s : String) : jsTrim (hereDoc s) = trimmedFrame s := by
  rw [jsTrim_eq_mk]
  have hd : (hereDoc s).data
      = ('o' :: ("sascript <<".data ++ sq.data ++ "__APPLESCRIPT__".data
            ++ sq.data ++ "\n".data ++ s.data ++ "\n__APPLESCRIPT_".data))
          ++ ['_'] ++ ['\n'] := by
    have h1 : "osascript <<".data = 'o' :: "sascript <<".data := rfl
    have h2 : ("\n__APPLESCRIPT__\n" : String).data
        = "\n__APPLESCRIPT_".data ++ ['_', '\n'] := by decide
    simp [hereDoc, String.data_append, h1, h2]
  have ht : (trimmedFrame s).data
      = ('o' :: ("sascript <<".data ++ sq.data ++ "__APPLESCRIPT__".data
            ++ sq.data ++ "\n".data ++ s.data ++ "\n__APPLESCRIPT_".data))
          ++ ['_'] := by
    have h1 : "osascript <<".data = 'o' :: "sascript <<".data := rfl
    have h3 : ("\n__APPLESCRIPT__" : String).data
        = "\n__APPLESCRIPT_".data ++ ['_'] := by decide
    simp [trimmedFrame, String.data_append, h1, h3]
  have hshape := jsTrimList_shape 'o' '_'
    ("sascript <<".data ++ sq.data ++ "__APPLESCRIPT__".data
      ++ sq.data ++ "\n".data ++ s.data ++ "\n__APPLESCRIPT_".data) ['\n']
    (by decide) (by decide) (by intro c hc; simp at hc; subst hc; decide)
  rw [hd]
  have hmk : trimmedFrame s = ⟨(trimmedFrame s).data⟩ := rfl
  rw [hmk, ht]
  exact congrArg String.mk hshape

theorem trimmedFrame_ne_exit (s : String) : trimmedFrame s ≠ "exit" := by
  intro h
  have hlen := congrArg String.length h
  have h1 : ("osascript <<" : String).length = 12 := rfl
  have h2 : sq.length = 1 := rfl
  have h3 : ("__APPLESCRIPT__" : String).length = 15 := rfl
  have h4 : ("\n" : String).length = 1 := rfl
  have h5 : ("\n__APPLESCRIPT__" : String).length = 16 := rfl
  have h6 : ("exit" : String).length = 4 := rfl
  simp [trimmedFrame, String.length_append, h1, h2, h3, h4, h5, h6] at hlen

/-- The event block of one fully serialized command: submission, delivery to
the worker, completion of its `exec`, and delivery of its single response
chunk (the two delivery events cover the stdout and the stderr case; the one
for the unused stream is a no-op). -/
def lockStep (arr : List String) : List Event :=
  [.submit (some arr), .deliverStdin 0, .completeExec 0 0, .deliverOut 0, .deliverErr 0]

/-- A quiescent system: worker 0 alive and idle, no pending requests, all
stream buffers empty — only the counters and observation logs vary. -/
def quiescent (k : Nat) (cmds : List String) (stl : List (Nat × Outcome))
    (wr : List (Nat × String)) : SysState :=
  { os := { mainThread := some 0, attached := [0], pending := [], nextReqId := k,
            nextWid := 1, commands := cmds, settled := stl, writes := wr },
    procs := [freshProc] }

theorem initSys_eq_quiescent : initSys = quiescent 0 [] [] [] := rfl

theorem runFrom_lockStep (oracle : String → ExecOutcome) (k : Nat)
    (cmds : List String) (stl : List (Nat × Outcome)) (wr : List (Nat × String))
    (x : String) (xs : List String) :
    runFrom oracle (quiescent k cmds stl wr) (lockStep (x :: xs))
      = quiescent (k + 1)
          (cmds ++ [hereDoc (String.intercalate "\n" (x :: xs))])
          (stl ++ [(k, expectedResponse oracle
              (trimmedFrame (String.intercalate "\n" (x :: xs))))])
          (wr ++ [(0, hereDoc (String.intercalate "\n" (x :: xs)))]) := by
  rcases h : oracle (trimmedFrame (String.intercalate "\n" (x :: xs))) with out | ⟨se, m⟩
  all_goals
    simp [runFrom, lockStep, List.foldl_cons, List.foldl_nil, step, executeScript,
      setProc, workerOnData, execChunk, handleOutput, errorHandler, expectedResponse,
      jsTrim_hereDoc, trimmedFrame_ne_exit, quiescent, freshProc, h]

/-- Serialized execution of a list of submissions: one lock-step block per
submission, each fully processed before the next. -/
def lockSteps : List (List String) → List Event
  | [] => []
  | a :: rest => lockStep a ++ lockSteps rest

/-- The settlements a serialized execution produces, starting from request
id `k`: the i-th submission's request settled with the worker's response to
that submission's own framed command. -/
def expectedSettled (oracle : String → ExecOutcome) (k : Nat) :
    List (List String) → List (Nat × Outcome)
  | [] => []
  | a :: rest =>
    (k, expectedResponse oracle (trimmedFrame (String.intercalate "\n" a)))
      :: expectedSettled oracle (k + 1) rest

theorem runFrom_append (oracle : String → ExecOutcome) (s : SysState)
    (e1 e2 : List Event) :
    runFrom oracle s (e1 ++ e2) = runFrom oracle (runFrom oracle s e1) e2 :=
  List.foldl_append _ _ _ _

theorem runFrom_lockSteps (oracle : String → ExecOutcome) (cs : List (List String))
    (hcs : ∀ a ∈ cs, a ≠ []) (k : Nat) (cmds : List String)
    (stl : List (Nat × Outcome)) (wr : List (Nat × String)) :
    runFrom oracle (quiescent k cmds stl wr) (lockSteps cs)
      = quiescent (k + cs.length)
          (cmds ++ cs.map (fun a => hereDoc (String.intercalate "\n" a)))
          (stl ++ expectedSettled oracle k cs)
          (wr ++ cs.map (fun a => (0, hereDoc (String.intercalate "\n" a)))) := by
  induction cs generalizing k cmds stl wr with
  | nil => simp [lockSteps, runFrom, expectedSettled]
  | cons a rest ih =>
    obtain ⟨x, xs, rfl⟩ := List.exists_cons_of_ne_nil (hcs a (by simp))
    rw [lockSteps, runFrom_append, runFrom_lockStep,
      ih (fun b hb => hcs b (by simp [hb]))]
    simp [expectedSettled, List.append_assoc]
    congr 1
    omega

theorem expectedSettled_map_fst (oracle : String → ExecOutcome)
    (cs : List (List String)) :
    ∀ k, (expectedSettled oracle k cs).map Prod.fst = List.range' k cs.length := by
  induction cs with
  | nil => intro k; simp [expectedSettled]
  | cons a rest ih => intro k; simp [expectedSettled, List.range'_succ, ih]

theorem expectedSettled_length (oracle : String → ExecOutcome)
    (cs : List (List String)) (k : Nat) :
    (expectedSettled oracle k cs).length = cs.length := by
  have h := congrArg List.length (expectedSettled_map_fst oracle cs k)
  simpa using h

theorem expectedSettled_mem (oracle : String → ExecOutcome) (cs : List (List String)) :
    ∀ k pr, pr ∈ expectedSettled oracle k cs →
      k ≤ pr.1 ∧ ∃ a, cs[pr.1 - k]? = some a ∧
        pr.2 = expectedResponse oracle (trimmedFrame (String.intercalate "\n" a)) := by
  induction cs with
  | nil => intro k pr h; simp [expectedSettled] at h
  | cons a rest ih =>
    intro k pr h
    simp only [expectedSettled, List.mem_cons] at h
    rcases h with h | h
    · subst h
      exact ⟨Nat.le_refl _, a, by simp, rfl⟩
    · obtain ⟨hk, a', hget, hresp⟩ := ih (k + 1) pr h
      refine ⟨by omega, a', ?_, hresp⟩
      have hidx : pr.1 - k = (pr.1 - (k + 1)) + 1 := by omega
      rw [hidx, List.getElem?_cons_succ]
      exact hget

/-- The request-id bookkeeping invariant of the pipeline: no id occurs twice
among the settled log and the pending queue, and every id is below the
counter. -/
def goodIds (os : OsaState) : Prop :=
  (os.settled.map Prod.fst ++ os.pending).Nodup ∧
  ∀ i ∈ os.settled.map Prod.fst ++ os.pending, i < os.nextReqId

theorem goodIds_push (st : OsaState) (h : goodIds st) (cmd : String) (w : Nat) :
    goodIds ({ st with
                pending := st.pending ++ [st.nextReqId],
                nextReqId := st.nextReqId + 1,
                commands := st.commands ++ [cmd],
                writes := st.writes ++ [(w, cmd)] }) := by
  obtain ⟨h1, h2⟩ := h
  dsimp only [goodIds]
  constructor
  · rw [← List.append_assoc, List.nodup_append]
    refine ⟨h1, List.nodup_singleton _, ?_⟩
    rw [List.disjoint_singleton]
    intro hmem
    exact absurd (h2 _ hmem) (by omega)
  · intro i hi
    rw [← List.append_assoc, List.mem_append] at hi
    rcases hi with hi | hi
    · exact Nat.lt_succ_of_lt (h2 _ hi)
    · simp at hi; omega

theorem goodIds_pop (st : OsaState) (h : goodIds st) (q : Nat) (rest : List Nat)
    (hp : st.pending = q :: rest) (o : Outcome) :
    goodIds ({ st with pending := rest, settled := st.settled ++ [(q, o)] }) := by
  obtain ⟨h1, h2⟩ := h
  have he : (st.settled ++ [(q, o)]).map Prod.fst ++ rest
      = st.settled.map Prod.fst ++ st.pending := by
    simp [hp, List.append_assoc]
  refine ⟨?_, ?_⟩
  · show ((st.settled ++ [(q, o)]).map Prod.fst ++ rest).Nodup
    rw [he]; exact h1
  · show ∀ i ∈ (st.settled ++ [(q, o)]).map Prod.fst ++ rest, i < st.nextReqId
    intro i hi
    rw [he] at hi
    exact h2 _ hi

theorem goodIds_handleOutput (st : OsaState) (h : goodIds st) (c : String) :
    goodIds (handleOutput st c) := by
  rcases hp : st.pending with _ | ⟨q, rest⟩
  · simpa [handleOutput, hp] using h
  · rw [handleOutput, hp]
    exact goodIds_pop st h q rest hp _

theorem goodIds_errorHandler (st : OsaState) (h : goodIds st) (c : String) :
    goodIds (errorHandler st c) := by
  rcases hp : st.pending with _ | ⟨q, rest⟩
  · simpa [errorHandler, hp] using h
  · rw [errorHandler, hp]
    exact goodIds_pop st h q rest hp _

theorem executeScript_ok (st : OsaState) (arr : Option (List String))
    (os2 : OsaState) (w : Nat) (cmd : String)
    (h : executeScript st arr = .ok (os2, w, cmd)) :
    os2 = ({ st with
              pending := st.pending ++ [st.nextReqId],
              nextReqId := st.nextReqId + 1,
              commands := st.commands ++ [cmd],
              writes := st.writes ++ [(w, cmd)] }) := by
  rcases hm : st.mainThread with _ | w0
  · simp [executeScript, hm] at h
  · rcases arr with _ | a
    · simp [executeScript, hm] at h
    · by_cases he : a.isEmpty
      · simp [executeScript, hm, he] at h
      · simp only [executeScript, hm, he, if_false, Bool.false_eq_true,
          Except.ok.injEq, Prod.mk.injEq] at h
        obtain ⟨h1, h2, h3⟩ := h
        subst h2
        subst h3
        exact h1.symm

theorem executeSingleCommand_ok (st : OsaState) (cmdO : Option String)
    (os2 : OsaState) (w : Nat) (cmd : String)
    (h : executeSingleCommand st cmdO = .ok (os2, w, cmd)) :
    os2 = ({ st with
              pending := st.pending ++ [st.nextReqId],
              nextReqId := st.nextReqId + 1,
              commands := st.commands ++ [cmd],
              writes := st.writes ++ [(w, cmd)] }) := by
  rcases hm : st.mainThread with _ | w0
  · simp [executeSingleCommand, hm] at h
  · simp only [executeSingleCommand, hm, Except.ok.injEq, Prod.mk.injEq] at h
    obtain ⟨h1, h2, h3⟩ := h
    subst h2
    subst h3
    exact h1.symm

theorem goodIds_closeOsa (st : OsaState) (h : goodIds st) : goodIds (closeOsa st) := by
  rcases hm : st.mainThread with _ | w
  · simpa [closeOsa, hm] using h
  · simp only [closeOsa, hm]
    exact ⟨h.1, h.2⟩

theorem goodIds_restartOsa (st : OsaState) (h : goodIds st) :
    goodIds (restartOsa st) :=
  ⟨h.1, h.2⟩

theorem goodIds_step (oracle : String → ExecOutcome) (e : Event) (s : SysState)
    (h : goodIds s.os) : goodIds (step oracle s e).os := by
  cases e with
  | submit arr =>
    dsimp only [step]
    rcases hex : executeScript s.os arr with msg | ⟨os2, w, cmd⟩
    · exact h
    · have hos2 := executeScript_ok _ _ _ _ _ hex
      subst hos2
      dsimp only
      split
      · exact goodIds_push _ h _ _
      · exact goodIds_push _ h _ _
  | submitRaw cmdO =>
    dsimp only [step]
    rcases hex : executeSingleCommand s.os cmdO with msg | ⟨os2, w, cmd⟩
    · exact h
    · have hos2 := executeSingleCommand_ok _ _ _ _ _ hex
      subst hos2
      dsimp only
      split
      · exact goodIds_push _ h _ _
      · exact goodIds_push _ h _ _
  | deliverStdin w =>
    dsimp only [step]
    split
    · exact h
    · split
      · exact h
      · exact h
  | completeExec w i =>
    dsimp only [step]
    split
    · exact h
    · split
      · split
        · exact h
        · split
          · exact h
          · exact h
      · exact h
  | deliverOut w =>
    dsimp only [step]
    split
    · exact h
    · split
      · exact h
      · split
        · exact goodIds_handleOutput _ h _
        · exact h
  | deliverErr w =>
    dsimp only [step]
    split
    · exact h
    · split
      · exact h
      · split
        · exact goodIds_errorHandler _ h _
        · exact h
  | restart =>
    exact goodIds_restartOsa _ h
  | close =>
    dsimp only [step]
    split
    · exact h
    · split
      · exact goodIds_closeOsa _ h
      · exact goodIds_closeOsa _ h

theorem run_goodIds (oracle : String → ExecOutcome) (events : List Event) :
    goodIds (run oracle events).os := by
  have hstep : ∀ s, goodIds s.os → goodIds (runFrom oracle s events).os := by
    induction events with
    | nil => exact fun s hs => hs
    | cons e es ih => exact fun s hs => ih _ (goodIds_step oracle e s hs)
  refine hstep initSys ?_
  constructor
  · simp [initSys, initOsa]
  · intro i hi
    simp [initSys, initOsa] at hi

/-- Two submissions delivered to the worker before either `exec` callback
has run: both commands are executing concurrently. -/
def evTwoDelivered : List Event :=
  [.submit (some ["A"]), .submit (some ["B"]), .deliverStdin 0, .deliverStdin 0]

/-- `restart()` followed by a submission against the fresh worker, which
executes it and produces its response chunk. -/
def evRestartThenSubmit : List Event :=
  [.restart, .submit (some ["return 1"]), .deliverStdin 1, .completeExec 1 0,
   .deliverOut 1]

/-- The worker oracle of the spec scenario: the command prints `HELLO`, so
its stdout is `HELLO\n`. -/
def oracleHello : String → ExecOutcome := fun _ => .ok "HELLO\n"

/-- The spec scenario events, serialized: one submission, delivered,
executed, and its stdout chunk handled. -/
def evHello : List Event :=
  [.submit (some ["produce text: HELLO"]), .deliverStdin 0, .completeExec 0 0,
   .deliverOut 0]

/-- A pipeline with one command in flight (request 0 written, unanswered). -/
def busyOsa : OsaState :=
  { mainThread := some 0, attached := [0], pending := [0], nextReqId := 1,
    nextWid := 1, commands := [hereDoc "A"], settled := [],
    writes := [(0, hereDoc "A")] }

/-- A worker with one command still executing. -/
def busyWorker : WorkerState := { alive := true, inFlight := [trimmedFrame "A"] }

/-- C1 (counterexample): with two commands submitted concurrently and both
in flight, a legal completion order of the worker's asynchronous `exec`
(the second command finishing first) settles the first caller with the
response to the second caller's command: FIFO correlation fails. -/
theorem c1_fifo_counterexample : ¬ claimFIFO oracleEcho evOutOfOrder := by decide

/-- C1 (amended): when callers serialize — each submitted command is
delivered, executed, and its single response chunk handled before the next
submission — every caller's result is settled with the worker's response to
that caller's own command, in strict submission order. -/
theorem c1_fifo_lockstep (oracle : String → ExecOutcome)
    (cs : List (List String)) (hcs : ∀ a ∈ cs, a ≠ []) :
    claimFIFO oracle (lockSteps cs) := by
  have hrun : run oracle (lockSteps cs)
      = quiescent cs.length
          (cs.map fun a => hereDoc (String.intercalate "\n" a))
          (expectedSettled oracle 0 cs)
          (cs.map fun a => (0, hereDoc (String.intercalate "\n" a))) := by
    rw [run, initSys_eq_quiescent, runFrom_lockSteps oracle cs hcs]
    simp
  constructor
  · intro pr hpr
    rw [hrun] at hpr
    simp only [quiescent] at hpr
    obtain ⟨hk, a, hget, hresp⟩ := expectedSettled_mem oracle cs 0 pr hpr
    rw [hrun]
    simp only [quiescent]
    rw [hresp]
    have hcmd : (cs.map fun a => hereDoc (String.intercalate "\n" a)).getD pr.1 ""
        = hereDoc (String.intercalate "\n" a) := by
      rw [List.getD_eq_getElem?_getD, List.getElem?_map]
      rw [Nat.sub_zero] at hget
      rw [hget]
      rfl
    rw [hcmd, jsTrim_hereDoc]
  · rw [hrun]
    simp only [quiescent]
    rw [expectedSettled_map_fst, expectedSettled_length, List.range_eq_range']

theorem c1_fifo_lockstep_witness :
    (∀ a ∈ [["say 1"], ["say 2"]], a ≠ ([] : List String)) ∧
    claimFIFO oracleEcho (lockSteps [["say 1"], ["say 2"]]) :=
  ⟨by decide, c1_fifo_lockstep oracleEcho [["say 1"], ["say 2"]] (by decide)⟩

/-- C2 (counterexample): two submissions with no intervening worker response
produce two framed writes and two pending (in-flight) requests — the
pipeline writes a new framed command before the previous response has
arrived. -/
theorem c2_single_inflight_counterexample :
    ¬ claimSingleInFlight oracleEcho [.submit (some ["A"]), .submit (some ["B"])] ∧
    (run oracleEcho [.submit (some ["A"]), .submit (some ["B"])]).os.writes
      = [(0, hereDoc "A"), (0, hereDoc "B")] ∧
    (run oracleEcho [.submit (some ["A"]), .submit (some ["B"])]).os.settled
      = [] :=
  ⟨by decide, by decide, by decide⟩

/-- C2 (amended): the pipeline performs the framed write immediately inside
each `executeScript` call, even while a previous command is still in flight:
it enforces no single-in-flight discipline by construction. -/
theorem c2_write_immediate (st : OsaState) (w : Nat) (a : List String)
    (hw : st.mainThread = some w) (ha : a.isEmpty = false) (hp : st.pending ≠ []) :
    executeScript st (some a)
      = .ok (({ st with
                 pending := st.pending ++ [st.nextReqId],
                 nextReqId := st.nextReqId + 1,
                 commands := st.commands ++ [hereDoc (String.intercalate "\n" a)],
                 writes := st.writes ++ [(w, hereDoc (String.intercalate "\n" a))] }),
             w, hereDoc (String.intercalate "\n" a)) := by
  simp [executeScript, hw, ha]

theorem c2_write_immediate_witness :
    busyOsa.mainThread = some 0 ∧ (["B"] : List String).isEmpty = false ∧
    busyOsa.pending ≠ [] ∧
    executeScript busyOsa (some ["B"])
      = .ok (({ busyOsa with
                 pending := busyOsa.pending ++ [busyOsa.nextReqId],
                 nextReqId := busyOsa.nextReqId + 1,
                 commands := busyOsa.commands ++ [hereDoc (String.intercalate "\n" ["B"])],
                 writes := busyOsa.writes ++ [(0, hereDoc (String.intercalate "\n" ["B"]))] }),
             0, hereDoc (String.intercalate "\n" ["B"])) :=
  ⟨rfl, rfl, by decide, c2_write_immediate busyOsa 0 ["B"] rfl rfl (by decide)⟩

/-- C3 (counterexample): after two commands are delivered on the worker's
stdin, both are executing (two `exec` calls in flight) while no output or
error chunk has been written: the worker does not finish the first command
before starting the second. -/
theorem c3_worker_sequential_counterexample :
    ¬ claimWorkerSeq oracleEcho evTwoDelivered ∧
    ((run oracleEcho evTwoDelivered).procs.get? 0).map (fun p => p.ws.inFlight.length)
      = some 2 ∧
    ((run oracleEcho evTwoDelivered).procs.get? 0).map (fun p => p.outBuf ++ p.errBuf)
      = some [] :=
  ⟨by decide, by decide, by decide⟩

/-- C3 (amended): the worker's stdin handler starts `exec` of each non-exit
command immediately on receipt of its chunk — also while earlier commands
are still executing — and returns without writing any chunk; the single
response chunk is written only by the asynchronous `exec` callback. -/
theorem c3_worker_starts_immediately (ws : WorkerState) (chunk : String)
    (halive : ws.alive = true) (hne : jsTrim chunk ≠ "exit") :
    workerOnData ws chunk
      = (({ ws with inFlight := ws.inFlight ++ [jsTrim chunk] }), none) := by
  simp [workerOnData, halive, hne]

theorem c3_worker_starts_immediately_witness :
    busyWorker.alive = true ∧ jsTrim (hereDoc "B") ≠ "exit" ∧
    workerOnData busyWorker (hereDoc "B")
      = (({ busyWorker with inFlight := busyWorker.inFlight ++ [jsTrim (hereDoc "B")] }),
         none) :=
  ⟨rfl, by decide, c3_worker_starts_immediately busyWorker (hereDoc "B") rfl (by decide)⟩

/-- C4: evaluation at the failing input.  After `restart()`, a submission is
written to and executed by the fresh worker (worker 1 holds its produced
response chunk `1\n`), but the pipeline's data handlers are attached only to
worker 0 — `restart()` attaches none — so the response is never handled: the
request stays pending forever and nothing is settled. -/
theorem c4_restart_no_handlers :
    (run (fun _ => .ok "1") evRestartThenSubmit).os.mainThread = some 1 ∧
    (run (fun _ => .ok "1") evRestartThenSubmit).os.attached = [0] ∧
    (run (fun _ => .ok "1") evRestartThenSubmit).os.pending = [0] ∧
    (run (fun _ => .ok "1") evRestartThenSubmit).os.settled = [] ∧
    ((run (fun _ => .ok "1") evRestartThenSubmit).procs.get? 1).map (fun p => p.outBuf)
      = some ["1\n"] :=
  ⟨by decide, by decide, by decide, by decide, by decide⟩

/-- C5 (counterexample): a command whose stdout is `HELLO\n` settles its
caller with `HELLO\n\n` — the worker writes `stdout + "\n"` — and not with
the raw stdout text `HELLO\n` the claim states. -/
theorem c5_raw_text_counterexample :
    (run oracleHello evHello).os.settled = [(0, .resolved ("HELLO\n" ++ "\n"))] ∧
    ¬ (run oracleHello evHello).os.settled = [(0, .resolved "HELLO\n")] :=
  ⟨by decide, by decide⟩

/-- C5 (amended): for a serialized command the caller receives, on success,
the command's raw stdout text with one extra newline appended by the worker,
and on a worker-reported failure the text `[ERROR] ` followed by the stderr
text (or the error message when stderr is empty) and a newline — not the raw
texts themselves. -/
theorem c5_transformed_text (oracle : String → ExecOutcome) (x : String)
    (xs : List String) :
    (run oracle (lockStep (x :: xs))).os.settled
      = [(0, (match oracle (trimmedFrame (String.intercalate "\n" (x :: xs))) with
              | .ok out => Outcome.resolved (out ++ "\n")
              | .fail stderr message =>
                Outcome.rejected
                  ("[ERROR] " ++ (if stderr = "" then message else stderr) ++ "\n")))] := by
  have h := runFrom_lockStep oracle 0 [] [] [] x xs
  rw [run, initSys_eq_quiescent, h]
  rcases ho : oracle (trimmedFrame (String.intercalate "\n" (x :: xs))) with out | ⟨se, m⟩
  all_goals simp [quiescent, expectedResponse, execChunk, ho]

/-- A payload with embedded double quotes, a newline, and single quotes. -/
def c6pay : String := "say \"hi\"\nsay " ++ sq ++ "x" ++ sq

/-- A command text containing single quotes. -/
def c7cmd : String := "say " ++ sq ++ "hi" ++ sq

/-- C6: for every payload — quotes and newlines included — `executeScript`
writes the here-document framing `osascript <<'__APPLESCRIPT__'`, newline,
the payload embedded character-for-character unaltered, newline, the end
delimiter `__APPLESCRIPT__`, and a terminating newline. -/
theorem c6_heredoc_framing (st : OsaState) (w : Nat) (s : String)
    (hw : st.mainThread = some w) :
    executeScript st (some [s])
      = .ok (({ st with
                 pending := st.pending ++ [st.nextReqId],
                 nextReqId := st.nextReqId + 1,
                 commands := st.commands ++ [hereDoc s],
                 writes := st.writes ++ [(w, hereDoc s)] }), w, hereDoc s) ∧
    hereDoc s = ("osascript <<" ++ sq ++ "__APPLESCRIPT__" ++ sq ++ "\n")
        ++ s ++ ("\n__APPLESCRIPT__" ++ "\n") := by
  constructor
  · have hi : String.intercalate "\n" [s] = s := rfl
    simp [executeScript, hw, hi]
  · rw [hereDoc,
      show ("\n__APPLESCRIPT__\n" : String) = "\n__APPLESCRIPT__" ++ "\n" from by decide]

theorem c6_heredoc_framing_witness :
    initOsa.mainThread = some 0 ∧
    (executeScript initOsa (some [c6pay])
      = .ok (({ initOsa with
                 pending := [0], nextReqId := 1,
                 commands := [hereDoc c6pay],
                 writes := [(0, hereDoc c6pay)] }), 0, hereDoc c6pay) ∧
     hereDoc c6pay = ("osascript <<" ++ sq ++ "__APPLESCRIPT__" ++ sq ++ "\n")
        ++ c6pay ++ ("\n__APPLESCRIPT__" ++ "\n")) :=
  ⟨rfl, c6_heredoc_framing initOsa 0 c6pay rfl⟩

/-- C7 (counterexample): `executeSingleCommand` does not write the caller's
pre-formatted text directly: for a text containing single quotes the write
is the text wrapped in `osascript -e '...'` with each quote escaped, not the
text itself. -/
theorem c7_raw_direct_counterexample :
    (executeSingleCommand initOsa (some c7cmd)).toOption.map (fun r => r.2.2)
      = some ("osascript -e " ++ sq ++ "say \\" ++ sq ++ "hi\\" ++ sq ++ sq ++ "\n") ∧
    ¬ (executeSingleCommand initOsa (some c7cmd)).toOption.map (fun r => r.2.2)
      = some c7cmd :=
  ⟨by decide, by decide⟩

/-- C7 (amended): `executeSingleCommand` bypasses the here-document framing
but wraps the caller's text in `osascript -e '<text with single quotes
escaped>'` plus a newline, while pushing its pending entry on the same FIFO
queue that `executeScript` uses (same queuing and correlation semantics). -/
theorem c7_wrapped_escaped (st : OsaState) (w : Nat) (cmd : String)
    (hw : st.mainThread = some w) :
    executeSingleCommand st (some cmd)
      = .ok (({ st with
                 pending := st.pending ++ [st.nextReqId],
                 nextReqId := st.nextReqId + 1,
                 commands := st.commands ++ [rawCommand (some cmd)],
                 writes := st.writes ++ [(w, rawCommand (some cmd))] }), w,
             "osascript -e " ++ sq ++ escapeSQ cmd ++ sq ++ "\n") := by
  simp [executeSingleCommand, hw, rawCommand]

theorem c7_wrapped_escaped_witness :
    initOsa.mainThread = some 0 ∧
    executeSingleCommand initOsa (some c7cmd)
      = .ok (({ initOsa with
                 pending := [0], nextReqId := 1,
                 commands := [rawCommand (some c7cmd)],
                 writes := [(0, rawCommand (some c7cmd))] }), 0,
             "osascript -e " ++ sq ++ escapeSQ c7cmd ++ sq ++ "\n") :=
  ⟨rfl, c7_wrapped_escaped initOsa 0 c7cmd rfl⟩

/-- C8 (counterexample): `executeSingleCommand` with the empty string does
not fail fast with a validation error — it succeeds and writes the framed
empty command `osascript -e ''` to the worker's input. -/
theorem c8_validation_counterexample :
    ¬ (executeSingleCommand initOsa (some "")).isOk = false ∧
    executeSingleCommand initOsa (some "")
      = .ok (({ initOsa with
                 pending := [0], nextReqId := 1,
                 commands := ["osascript -e " ++ sq ++ sq ++ "\n"],
                 writes := [(0, "osascript -e " ++ sq ++ sq ++ "\n")] }), 0,
             "osascript -e " ++ sq ++ sq ++ "\n") :=
  ⟨by decide, rfl⟩

/-- C8 (amended): `executeScript` fails fast — before any write — when its
argument is null or the empty array, but `executeSingleCommand` performs no
validation of its text: the empty string is wrapped and written, and a null
text is written as the literal `undefined`. -/
theorem c8_validation_split (st : OsaState) (w : Nat)
    (hw : st.mainThread = some w) :
    executeScript st none
      = .error "executeScript expects a non-empty array of AppleScript lines" ∧
    executeScript st (some [])
      = .error "executeScript expects a non-empty array of AppleScript lines" ∧
    executeSingleCommand st (some "")
      = .ok (({ st with
                 pending := st.pending ++ [st.nextReqId],
                 nextReqId := st.nextReqId + 1,
                 commands := st.commands ++ [rawCommand (some "")],
                 writes := st.writes ++ [(w, rawCommand (some ""))] }), w,
             rawCommand (some "")) ∧
    executeSingleCommand st none
      = .ok (({ st with
                 pending := st.pending ++ [st.nextReqId],
                 nextReqId := st.nextReqId + 1,
                 commands := st.commands ++ [rawCommand none],
                 writes := st.writes ++ [(w, rawCommand none)] }), w,
             "osascript -e " ++ sq ++ "undefined" ++ sq ++ "\n") := by
  refine ⟨?_, ?_, ?_, ?_⟩ <;>
    simp [executeScript, executeSingleCommand, hw, rawCommand]

theorem c8_validation_split_witness :
    initOsa.mainThread = some 0 ∧
    (executeScript initOsa none
      = .error "executeScript expects a non-empty array of AppleScript lines" ∧
     executeScript initOsa (some [])
      = .error "executeScript expects a non-empty array of AppleScript lines" ∧
     executeSingleCommand initOsa (some "")
      = .ok (({ initOsa with
                 pending := [0], nextReqId := 1,
                 commands := [rawCommand (some "")],
                 writes := [(0, rawCommand (some ""))] }), 0, rawCommand (some "")) ∧
     executeSingleCommand initOsa none
      = .ok (({ initOsa with
                 pending := [0], nextReqId := 1,
                 commands := [rawCommand none],
                 writes := [(0, rawCommand none)] }), 0,
             "osascript -e " ++ sq ++ "undefined" ++ sq ++ "\n")) :=
  ⟨rfl, c8_validation_split initOsa 0 rfl⟩

/-- C9: `close()` is idempotent — a second close returns the state unchanged
and does not throw, no worker handle is held afterwards, and both submit
entry points then fail synchronously with their pipeline-not-running
errors rather than hanging. -/
theorem c9_close_idempotent (st : OsaState) (arr : Option (List String))
    (cmd : Option String) :
    closeOsa (closeOsa st) = closeOsa st ∧
    (closeOsa st).mainThread = none ∧
    executeScript (closeOsa st) arr
      = .error "Osascript runtime error: mainThread is not running" ∧
    executeSingleCommand (closeOsa st) cmd
      = .error "Error ! main thread is not running" := by
  refine ⟨?_, ?_, ?_, ?_⟩ <;> rcases hm : st.mainThread with _ | w <;>
    simp [closeOsa, executeScript, executeSingleCommand, hm]

/-- C10: across every execution, no request id is ever settled twice (each
pending entry's `resolve`/`reject` is invoked at most once); a chunk handled
with an empty queue leaves the pipeline unchanged (no continuation invoked,
no throw); and a chunk with a non-empty queue removes exactly the front
entry and settles exactly that entry with the chunk. -/
theorem c10_at_most_once :
    (∀ (oracle : String → ExecOutcome) (events : List Event),
        ((run oracle events).os.settled.map Prod.fst).Nodup) ∧
    (∀ (st : OsaState) (c : String), st.pending = [] →
        handleOutput st c = st ∧ errorHandler st c = st) ∧
    (∀ (st : OsaState) (c : String) (q : Nat) (rest : List Nat),
        st.pending = q :: rest →
        handleOutput st c
          = ({ st with
                pending := rest,
                settled := st.settled ++ [(q, .resolved c)] }) ∧
        errorHandler st c
          = ({ st with
                pending := rest,
                settled := st.settled ++ [(q, .rejected c)] })) := by
  refine ⟨?_, ?_, ?_⟩
  · intro oracle events
    exact ((run_goodIds oracle events).1).of_append_left
  · intro st c hp
    constructor <;> simp [handleOutput, errorHandler, hp]
  · intro st c q rest hp
    constructor <;> simp [handleOutput, errorHandler, hp]

theorem c10_at_most_once_witness :
    ((run oracleEcho evOutOfOrder).os.settled.map Prod.fst).Nodup ∧
    handleOutput initOsa "x" = initOsa ∧
    handleOutput busyOsa "x"
      = ({ busyOsa with pending := [], settled := [(0, .resolved "x")] }) :=
  ⟨c10_at_most_once.1 oracleEcho evOutOfOrder,
   (c10_at_most_once.2.1 initOsa "x" rfl).1,
   (c10_at_most_once.2.2 busyOsa "x" 0 [] rfl).1⟩

end AppleJs
